import Mathlib

/-!
Shallow embedding of the TimeFly VS Code extension's activity-tracking core
(services/pulse.ts, services/storage.ts, services/sync.ts, utils/time.ts,
config.ts).  Timestamps and millisecond totals are JS numbers holding
integer values, embedded as `Int`.  JS `undefined`-able fields are embedded
as `Option`.  Asynchronous persistence (`vscode.Memento.update`) applies its
in-memory effect at call time; the returned promise only signals durability,
so storage operations are embedded as state transitions on a `Store` value.
Wall-clock reads (`Date.now()`, the current date string) are passed in as
explicit arguments.
-/

namespace TimeFly

/-- The activity state of a pulse (types/index.ts `ActivityState`). -/
inductive ActivityState where
  | coding
  | debugging
deriving DecidableEq, Repr

/-- The kind of tracked entity (types/index.ts `EntityType`). -/
inductive EntityType where
  | file
  | app
  | domain
deriving DecidableEq, Repr

/-- One tracking pulse (types/index.ts `Pulse`). -/
structure Pulse where
  entity : String
  type : EntityType
  state : ActivityState
  time : Int
  project : Option String
  project_root_count : Int
  branch : Option String
  language : Option String
  dependencies : Option String
  machine_name_id : String
  line_additions : Option Int
  line_deletions : Option Int
  lines : Int
  lineno : Option Int
  cursorpos : Option Int
  is_write : Bool
  content : Option String
deriving DecidableEq, Repr

/-- An aggregated pulse (types/index.ts `AggregatedPulse`). -/
structure AggregatedPulse where
  entity : String
  type : EntityType
  state : ActivityState
  start_time : Int
  end_time : Int
  project : Option String
  branch : Option String
  language : Option String
  dependencies : Option String
  machine_name_id : String
  line_additions : Int
  line_deletions : Int
  lines : Int
  is_write : Bool
deriving DecidableEq, Repr

/-- The in-memory tracking context (types/index.ts `PulseContext`). -/
structure PulseContext where
  pulses : List Pulse
  aggregatedPulses : List AggregatedPulse
  todayTotal : Int
  lastFileContent : String
  lastActivityTime : Int
  lastAggregationTime : Int
  lastPulse : Option Pulse
  isActive : Bool
  activeStartTime : Int
deriving DecidableEq, Repr

/-- `IDLE_THRESHOLD` from services/pulse.ts: 2 minutes in milliseconds. -/
def IDLE_THRESHOLD : Int := 120000

/-- `AGGREGATION_INTERVAL` from services/pulse.ts: 30 seconds. -/
def AGGREGATION_INTERVAL : Int := 30000

/-- utils/time.ts `calculateElapsedTime`: `Math.max(0, end - start)`. -/
def calculateElapsedTime (start stop : Int) : Int :=
  max 0 (stop - start)

/-- JS truthiness fallback `s || d` for an optional string: `undefined` and
the empty string are falsy. -/
def jsOrString (s : Option String) (d : String) : String :=
  match s with
  | none => d
  | some v => if v = "" then d else v

/-- JS fallback `n || 0` for an optional number (all stored counters are
integers, and `0 || 0` and `undefined || 0` both give `0`). -/
def jsOrZero (n : Option Int) : Int :=
  match n with
  | none => 0
  | some v => v

/-- Helper for `splitLines`: split a character list on newline characters,
accumulating the current (reversed) segment. -/
def splitLinesAux : List Char → List Char → List String
  | [], acc => [String.mk acc.reverse]
  | c :: cs, acc =>
    if c = '\n' then String.mk acc.reverse :: splitLinesAux cs []
    else splitLinesAux cs (c :: acc)

/-- JS `content.split('\n')`: the (always non-empty) list of newline
separated segments; the empty string splits to a single empty segment. -/
def splitLines (s : String) : List String :=
  splitLinesAux s.data []

/-- Result of the line-change heuristic of services/pulse.ts. -/
structure LineChanges where
  additions : Int
  deletions : Int
deriving DecidableEq, Repr

/-- services/pulse.ts `calculateLineChanges`: line-count delta, or a
per-line set-difference count when the counts agree, floored to (1, 1)
when additions and deletions cancel out. -/
def calculateLineChanges (oldContent newContent : String) : LineChanges :=
  if oldContent = "" ∨ oldContent = newContent then
    { additions := 0, deletions := 0 }
  else
    let oldLines := splitLines oldContent
    let newLines := splitLines newContent
    let lineDiff : Int := (newLines.length : Int) - (oldLines.length : Int)
    if lineDiff > 0 then
      { additions := lineDiff, deletions := 0 }
    else if lineDiff < 0 then
      { additions := 0, deletions := |lineDiff| }
    else
      let additions : Int := ((newLines.filter (fun l => ¬ oldLines.contains l)).length : Int)
      let deletions : Int := ((oldLines.filter (fun l => ¬ newLines.contains l)).length : Int)
      if additions = deletions ∧ additions > 0 then
        { additions := 1, deletions := 1 }
      else
        { additions := additions, deletions := deletions }

/-- services/pulse.ts `updateContext` (the `Date.now()` read is the explicit
`now` argument). -/
def updateContext (context : PulseContext) (pulse : Pulse) (now : Int) : PulseContext :=
  let timeSinceLastActivity := calculateElapsedTime context.lastActivityTime now
  let isActive := timeSinceLastActivity ≤ IDLE_THRESHOLD
  let todayTotal := if isActive then context.todayTotal + timeSinceLastActivity else context.todayTotal
  let shouldAggregateNow := now - context.lastAggregationTime ≥ AGGREGATION_INTERVAL
  let sameEntity : Bool :=
    match context.lastPulse with
    | some lp => pulse.entity = lp.entity
    | none => false
  let lastFileContent :=
    if sameEntity then
      jsOrString pulse.content context.lastFileContent
    else
      jsOrString pulse.content ""
  { context with
      pulses := context.pulses ++ [pulse]
      todayTotal := todayTotal
      lastActivityTime := now
      isActive := isActive
      activeStartTime := if isActive then (if context.isActive then context.activeStartTime else now) else 0
      lastFileContent := lastFileContent
      lastAggregationTime := if shouldAggregateNow then now else context.lastAggregationTime
      lastPulse := some pulse }

/-- services/pulse.ts `aggregatePulses`: fold the pending run into one
`AggregatedPulse` (first and last pulse of the run as time bounds, sums of
line counters, descriptive fields from the latest pulse), clearing the run;
no-op on an empty run. -/
def aggregatePulses (context : PulseContext) : PulseContext :=
  match context.pulses with
  | [] => context
  | first :: rest =>
    let latestPulse := (first :: rest).getLast (List.cons_ne_nil first rest)
    let aggregatedPulse : AggregatedPulse :=
      { entity := latestPulse.entity
        type := latestPulse.type
        state := latestPulse.state
        start_time := first.time
        end_time := latestPulse.time
        project := latestPulse.project
        branch := latestPulse.branch
        language := latestPulse.language
        dependencies := latestPulse.dependencies
        machine_name_id := latestPulse.machine_name_id
        line_additions := context.pulses.foldl (fun sum p => sum + jsOrZero p.line_additions) 0
        line_deletions := context.pulses.foldl (fun sum p => sum + jsOrZero p.line_deletions) 0
        lines := latestPulse.lines
        is_write := latestPulse.is_write }
    { context with
        aggregatedPulses := context.aggregatedPulses ++ [aggregatedPulse]
        pulses := [] }

/-- services/pulse.ts `shouldAggregate` predicate, used by `trackActivity`
to decide whether to run `aggregatePulses` on the already-updated context. -/
def shouldAggregate (context : PulseContext) : Bool :=
  context.lastAggregationTime ≠ context.lastActivityTime

/-- utils/functional.ts `when`: apply `f` only when the predicate holds. -/
def when (condition : α → Bool) (f : α → α) : α → α :=
  fun value => if condition value then f value else value

/-- The in-memory part of one `trackActivity` step on a built pulse
(services/pulse.ts): `pipe(ctx, updateContext, when(shouldAggregate,
aggregatePulses))`. -/
def trackStep (context : PulseContext) (pulse : Pulse) (now : Int) : PulseContext :=
  when shouldAggregate aggregatePulses (updateContext context pulse now)

/-- Persisted sync-health record (types/index.ts `SyncStatus`; the JS
object additionally carries the `lastError` detail written by
services/sync.ts, absent unless a failure was recorded). -/
inductive ApiStatus where
  | ok
  | error
  | unknown
deriving DecidableEq, Repr

/-- The persisted sync status record. -/
structure SyncStatus where
  lastSyncTime : Int
  nextSyncTime : Int
  syncCount : Int
  isOnline : Bool
  apiStatus : ApiStatus
  pendingPulses : Int
  lastError : Option String
deriving DecidableEq, Repr

/-- A `Partial<SyncStatus>` as passed to `updateSyncStatus`: `none` means
the key is absent from the patch object.  For `lastError` the patch can
also carry an explicit `undefined` (`some none`), which the object spread
in utils/functional.ts `updateObject` writes through. -/
structure SyncStatusPatch where
  lastSyncTime : Option Int := none
  nextSyncTime : Option Int := none
  syncCount : Option Int := none
  isOnline : Option Bool := none
  apiStatus : Option ApiStatus := none
  pendingPulses : Option Int := none
  lastError : Option (Option String) := none
deriving DecidableEq, Repr

/-- utils/functional.ts `updateObject` specialised to a sync-status patch:
present keys override, absent keys keep the current value. -/
def applyStatusPatch (current : SyncStatus) (patch : SyncStatusPatch) : SyncStatus :=
  { lastSyncTime := patch.lastSyncTime.getD current.lastSyncTime
    nextSyncTime := patch.nextSyncTime.getD current.nextSyncTime
    syncCount := patch.syncCount.getD current.syncCount
    isOnline := patch.isOnline.getD current.isOnline
    apiStatus := patch.apiStatus.getD current.apiStatus
    pendingPulses := patch.pendingPulses.getD current.pendingPulses
    lastError := patch.lastError.getD current.lastError }

/-- The key-value persistence collaborator (`vscode.Memento`) restricted to
the keys services/storage.ts uses.  `none` models an absent key. -/
structure Store where
  pendingPulses : List Pulse
  aggregatedPulses : List AggregatedPulse
  todayTotal : Option Int
  todayDate : Option String
  lastUpdate : Option Int
  lastSync : Option Int
  syncStatus : Option SyncStatus
deriving DecidableEq, Repr

/-- utils/time.ts `hasDayChanged`: an absent (or empty, JS-falsy) stored
date always counts as changed, otherwise compare against the current date
string (`today` stands for `getCurrentDateString()`). -/
def hasDayChanged (today : String) (storedDate : Option String) : Bool :=
  match storedDate with
  | none => true
  | some d => if d = "" then true else today ≠ d

/-- services/storage.ts `resetDailyCounters`: zero the total, stamp the
marker with today, record the update time. -/
def resetDailyCounters (today : String) (now : Int) (store : Store) : Store :=
  { store with todayTotal := some 0, todayDate := some today, lastUpdate := some now }

/-- services/storage.ts `checkDayChange`: reset the daily counters when the
stored date marker does not match the current date. -/
def checkDayChange (today : String) (now : Int) (store : Store) : Store :=
  if hasDayChanged today store.todayDate then resetDailyCounters today now store else store

/-- services/storage.ts `savePulses`: day check, then append the pulses
with the transient `content` field stripped. -/
def savePulses (today : String) (now : Int) (pulses : List Pulse) (store : Store) : Store :=
  let s := checkDayChange today now store
  { s with pendingPulses := s.pendingPulses ++ pulses.map (fun p => { p with content := none }) }

/-- services/storage.ts `getPendingPulses`. -/
def getPendingPulses (store : Store) : List Pulse :=
  store.pendingPulses

/-- services/storage.ts `clearSyncedPulses`: drop every pending pulse whose
`time` occurs among the synced pulses' times. -/
def clearSyncedPulses (syncedPulses : List Pulse) (store : Store) : Store :=
  let syncedIds := syncedPulses.map (fun p => p.time)
  { store with pendingPulses := store.pendingPulses.filter (fun p => ¬ syncedIds.contains p.time) }

/-- services/storage.ts `saveAggregatedPulses`: day check, then append. -/
def saveAggregatedPulses (today : String) (now : Int) (pulses : List AggregatedPulse)
    (store : Store) : Store :=
  let s := checkDayChange today now store
  { s with aggregatedPulses := s.aggregatedPulses ++ pulses }

/-- services/storage.ts `getAggregatedPulses`. -/
def getAggregatedPulses (store : Store) : List AggregatedPulse :=
  store.aggregatedPulses

/-- services/storage.ts `clearSyncedAggregatedPulses`: drop every stored
aggregated pulse whose `start_time` occurs among the synced ones. -/
def clearSyncedAggregatedPulses (syncedPulses : List AggregatedPulse) (store : Store) : Store :=
  let syncedIds := syncedPulses.map (fun p => p.start_time)
  { store with aggregatedPulses := store.aggregatedPulses.filter (fun p => ¬ syncedIds.contains p.start_time) }

/-- services/storage.ts `saveTodayTotal`: day check, then write the new
total (and the update stamp) only when it is strictly greater than the
currently stored total. -/
def saveTodayTotal (today : String) (now : Int) (total : Int) (store : Store) : Store :=
  let s := checkDayChange today now store
  let currentTotal := jsOrZero s.todayTotal
  if total > currentTotal then
    { s with todayTotal := some total, lastUpdate := some now }
  else
    s

/-- services/storage.ts `getTodayTotal`: the synchronous part of the day
check runs before the read (the un-awaited promise only signals
durability), then the stored total (defaulted to 0) is returned together
with the store the update calls left behind. -/
def getTodayTotal (today : String) (now : Int) (store : Store) : Int × Store :=
  let s := checkDayChange today now store
  (jsOrZero s.todayTotal, s)

/-- `SYNC_INTERVAL` of config.ts `CONFIG.SYNC.INTERVAL`: 30 minutes. -/
def SYNC_INTERVAL : Int := 30 * 60 * 1000

/-- config.ts `CONFIG.SYNC.MAX_RETRY_ATTEMPTS`. -/
def MAX_RETRY_ATTEMPTS : Nat := 1

/-- config.ts `CONFIG.SYNC.INITIAL_BACKOFF` in milliseconds. -/
def INITIAL_BACKOFF : Int := 1000

/-- services/storage.ts `getSyncStatus`: stored record, or the default
created on first read. -/
def getSyncStatus (now : Int) (store : Store) : SyncStatus :=
  match store.syncStatus with
  | some status => status
  | none =>
    { lastSyncTime := 0
      nextSyncTime := now + 30 * 60 * 1000
      syncCount := 0
      isOnline := true
      apiStatus := ApiStatus.unknown
      pendingPulses := 0
      lastError := none }

/-- services/storage.ts `updateSyncStatus`: read-modify-merge of the stored
status record with a partial patch. -/
def updateSyncStatus (now : Int) (patch : SyncStatusPatch) (store : Store) : Store :=
  { store with syncStatus := some (applyStatusPatch (getSyncStatus now store) patch) }

/-- Outcome and final in-memory/persisted state of one `trackActivity` call
(services `originalTrackActivity` variant): `ok = false` models a rejected
promise.  The failure flags inject a rejection of the corresponding
persistence write (`savePulses`, `saveAggregatedPulses`,
`saveTodayTotal`). -/
structure TrackOutcome where
  ok : Bool
  context : PulseContext
  store : Store
deriving DecidableEq, Repr

/-- `trackActivity` with an editor present, after the pulse has been built:
the context is swapped to the folded value first, then the raw pulse is
persisted, then (when the fold produced aggregated pulses) those are
persisted and cleared from the context, then the today total is persisted.
A rejected write rejects the whole call; the context keeps whatever value
it had been swapped to by then. -/
def trackActivity (failSave failSaveAgg failSaveTotal : Bool) (today : String) (now : Int)
    (store : Store) (context : PulseContext) (pulse : Pulse) : TrackOutcome :=
  let ctx1 := trackStep context pulse now
  if failSave then
    { ok := false, context := ctx1, store := store }
  else
    let store1 := savePulses today now [pulse] store
    if ctx1.aggregatedPulses.length > 0 then
      if failSaveAgg then
        { ok := false, context := ctx1, store := store1 }
      else
        let store2 := saveAggregatedPulses today now ctx1.aggregatedPulses store1
        let ctx2 := { ctx1 with aggregatedPulses := [] }
        if failSaveTotal then
          { ok := false, context := ctx2, store := store2 }
        else
          { ok := true, context := ctx2, store := saveTodayTotal today now ctx2.todayTotal store2 }
    else
      if failSaveTotal then
        { ok := false, context := ctx1, store := store1 }
      else
        { ok := true, context := ctx1, store := saveTodayTotal today now ctx1.todayTotal store1 }

/-- An element of the merged sync list of services/sync.ts `syncToBackend`:
either a raw pulse (identity key `time`) or an aggregated pulse (identity
key `start_time`). -/
inductive SyncItem where
  | raw (p : Pulse)
  | agg (a : AggregatedPulse)
deriving DecidableEq, Repr

/-- The identity timestamp of a sync item: `time` for raw pulses,
`start_time` for aggregated pulses. -/
def identityTime : SyncItem → Int
  | SyncItem.raw p => p.time
  | SyncItem.agg a => a.start_time

/-- The comparator of services/sync.ts `syncToBackend`:
two raw pulses compare by `time`, two aggregated pulses by `start_time`,
and a mixed raw/aggregated pair falls through to `0` (neither has both
keys). -/
def jsCompare : SyncItem → SyncItem → Int
  | SyncItem.raw a, SyncItem.raw b => a.time - b.time
  | SyncItem.agg a, SyncItem.agg b => a.start_time - b.start_time
  | _, _ => 0

/-- Insert for the stable sort model of `Array.prototype.sort`: the new
element goes after every already-placed element that the comparator does
not order strictly after it, so earlier input positions win ties. -/
def jsSortInsert (cmp : α → α → Int) (x : α) : List α → List α
  | [] => [x]
  | y :: ys => if cmp y x ≤ 0 then y :: jsSortInsert cmp x ys else x :: y :: ys

/-- `Array.prototype.sort(cmp)` modelled as a stable comparison sort (the
ECMAScript sort is required to be stable; for the list sizes considered
here every stable comparison sort produces the same output). -/
def jsSort (cmp : α → α → Int) (items : List α) : List α :=
  items.foldl (fun acc x => jsSortInsert cmp x acc) []

/-- The merged batch list of services/sync.ts `syncToBackend`:
`[...pulses, ...aggregatedPulses].sort(comparator)`. -/
def allItems (pulses : List Pulse) (aggregatedPulses : List AggregatedPulse) : List SyncItem :=
  jsSort jsCompare (pulses.map SyncItem.raw ++ aggregatedPulses.map SyncItem.agg)

/-- Result of one `performSync` run (services/sync.ts): whether the
returned promise resolved, the resulting store, the backoff delays slept
between attempts in order, and the number of network sends made. -/
structure SyncOutcome where
  ok : Bool
  store : Store
  delays : List Int
  sends : Nat
deriving Repr

/-- The network collaborator for one sync run: for each retry count,
`none` means the send succeeded and `some e` that the whole
`syncToBackend` attempt failed with error detail `e`. -/
def NetOracle := Nat → Option String

/-- The recursive `attemptSync` of services/sync.ts `performSync`: on
success clear exactly the pulses read for the run and record a healthy
status; on failure retry after `2 ^ retryCount * INITIAL_BACKOFF`
milliseconds while `retryCount < MAX_RETRY_ATTEMPTS`, else give up with
the attempt's error.  `fuel` is an upper bound on the remaining attempts,
always instantiated to `MAX_RETRY_ATTEMPTS + 1 - retryCount`. -/
def attemptSync (net : NetOracle) (today : String) (now : Int)
    (pendingPulses : List Pulse) (aggregatedPulses : List AggregatedPulse) :
    Nat → Nat → Store → SyncOutcome × Option String
  | _, 0, store => (⟨false, store, [], 0⟩, some "out of fuel")
  | retryCount, fuel + 1, store =>
    match net retryCount with
    | none =>
      let cleared := clearSyncedAggregatedPulses aggregatedPulses (clearSyncedPulses pendingPulses store)
      let updated := updateSyncStatus now
        { lastSyncTime := some now
          nextSyncTime := some (now + SYNC_INTERVAL)
          syncCount := some ((getSyncStatus now cleared).syncCount + 1)
          isOnline := some true
          apiStatus := some ApiStatus.ok
          pendingPulses := some 0
          lastError := some none } cleared
      (⟨true, updated, [], 1⟩, none)
    | some e =>
      if retryCount < MAX_RETRY_ATTEMPTS then
        let backoffTime := 2 ^ retryCount * INITIAL_BACKOFF
        let rest := attemptSync net today now pendingPulses aggregatedPulses (retryCount + 1) fuel store
        (⟨rest.1.ok, rest.1.store, backoffTime :: rest.1.delays, rest.1.sends + 1⟩, rest.2)
      else
        (⟨false, store, [], 1⟩, some e)

/-- services/sync.ts `performSync` (single-flight entry assumed free, API
key passed in): refresh the day marker via
`saveTodayTotal(getTodayTotal())`, read both queues, resolve trivially
when both are empty, record an error status when the API key is missing,
otherwise run `attemptSync 0` and, if it exhausts its retries, record the
failure status (queues untouched) and reject. -/
def performSync (net : NetOracle) (apiKey : Option String) (today : String) (now : Int)
    (store : Store) : SyncOutcome :=
  let g := getTodayTotal today now store
  let s0 := saveTodayTotal today now g.1 g.2
  let pendingPulses := getPendingPulses s0
  let aggregatedPulses := getAggregatedPulses s0
  if pendingPulses.length = 0 ∧ aggregatedPulses.length = 0 then
    ⟨true, s0, [], 0⟩
  else
    match apiKey with
    | none =>
      let updated := updateSyncStatus now
        { isOnline := some false
          apiStatus := some ApiStatus.error
          lastSyncTime := some now
          nextSyncTime := some (now + SYNC_INTERVAL)
          pendingPulses := some ((pendingPulses.length : Int) + (aggregatedPulses.length : Int))
          lastError := some (some "No valid API key found") } s0
      ⟨true, updated, [], 0⟩
    | some _ =>
      let r := attemptSync net today now pendingPulses aggregatedPulses 0 (MAX_RETRY_ATTEMPTS + 1) s0
      if r.1.ok then
        r.1
      else
        let updated := updateSyncStatus now
          { isOnline := some false
            apiStatus := some ApiStatus.error
            lastSyncTime := some (if (getSyncStatus now r.1.store).lastSyncTime > 0
              then (getSyncStatus now r.1.store).lastSyncTime else now)
            nextSyncTime := some (now + SYNC_INTERVAL)
            pendingPulses := some ((pendingPulses.length : Int) + (aggregatedPulses.length : Int))
            lastError := some (match r.2 with | some e => some e | none => some "Sync failed") }
          r.1.store
        ⟨false, updated, r.1.delays, r.1.sends⟩

/-! Claim-side reference definitions, written from the specification's
wording, to be compared with the embedded source functions. -/

/-- The line-change heuristic as the specification words it: identical or
absent previous content gives (0, 0); a line-count delta is attributed
wholly to additions (count grew) or deletions (count shrank); with equal
counts, additions are the lines of the new content absent from the old and
deletions the lines of the old content absent from the new, floored to
(1, 1) when both are equal and nonzero. -/
def claimLineChanges (oldContent newContent : String) : LineChanges :=
  if oldContent = "" ∨ oldContent = newContent then
    { additions := 0, deletions := 0 }
  else
    let oldLines := splitLines oldContent
    let newLines := splitLines newContent
    if oldLines.length < newLines.length then
      { additions := ((newLines.length - oldLines.length : Nat) : Int), deletions := 0 }
    else if newLines.length < oldLines.length then
      { additions := 0, deletions := ((oldLines.length - newLines.length : Nat) : Int) }
    else
      let additions := (newLines.filter (fun l => ¬ oldLines.contains l)).length
      let deletions := (oldLines.filter (fun l => ¬ newLines.contains l)).length
      if additions = deletions ∧ 0 < additions then
        { additions := 1, deletions := 1 }
      else
        { additions := (additions : Int), deletions := (deletions : Int) }

/-- Claim-side accrual over a sequence of pulse wall-clock times: the sum
of every consecutive gap at most the idle threshold, a gap above the
threshold contributing 0. -/
def accrue : Int → List Int → Int
  | _, [] => 0
  | last, t :: ts =>
    (if calculateElapsedTime last t ≤ IDLE_THRESHOLD then calculateElapsedTime last t else 0)
      + accrue t ts

/-- A sequence of in-memory tracking steps: fold `trackStep` over a list of
(pulse, observation time) pairs. -/
def runTrack (context : PulseContext) (events : List (Pulse × Int)) : PulseContext :=
  events.foldl (fun c pe => trackStep c pe.1 pe.2) context

/-! Concrete values used by witnesses and counterexamples. -/

/-- A minimal concrete pulse for a given entity and timestamp. -/
def samplePulse (e : String) (t : Int) : Pulse :=
  { entity := e, type := EntityType.file, state := ActivityState.coding, time := t,
    project := none, project_root_count := 0, branch := none, language := none,
    dependencies := none, machine_name_id := "m", line_additions := some 0,
    line_deletions := some 0, lines := 1, lineno := none, cursorpos := none,
    is_write := false, content := none }

/-- A minimal concrete aggregated pulse with a given start time. -/
def sampleAgg (s : Int) : AggregatedPulse :=
  { entity := "b.ts", type := EntityType.file, state := ActivityState.coding,
    start_time := s, end_time := s + 10, project := none, branch := none,
    language := none, dependencies := none, machine_name_id := "m",
    line_additions := 0, line_deletions := 0, lines := 1, is_write := false }

/-- A freshly initialised tracking context (all clocks at 0). -/
def freshContext : PulseContext :=
  { pulses := [], aggregatedPulses := [], todayTotal := 0, lastFileContent := "",
    lastActivityTime := 0, lastAggregationTime := 0, lastPulse := none,
    isActive := false, activeStartTime := 0 }

/-- A context whose pending run holds one pulse observed at t = 1, with the
last aggregation checkpoint at t = 0. -/
def pendingRunContext : PulseContext :=
  { freshContext with
    pulses := [samplePulse "a.ts" 1],
    lastActivityTime := 1,
    isActive := true }

/-- An empty persisted store (no keys present). -/
def emptyStore : Store :=
  { pendingPulses := [], aggregatedPulses := [], todayTotal := none,
    todayDate := none, lastUpdate := none, lastSync := none, syncStatus := none }

/-- A store carrying yesterday's date marker and a positive total. -/
def yesterdayStore : Store :=
  { emptyStore with todayTotal := some 500, todayDate := some "2026-10-10" }

/-- A store already stamped with today's date marker and a zero total. -/
def hwmStore : Store :=
  { emptyStore with todayTotal := some 0, todayDate := some "2026-10-11" }

/-- A concrete pulse for `runContext` carrying a line-addition count. -/
def wPulse (t adds : Int) : Pulse :=
  { samplePulse "a.ts" t with line_additions := some adds, line_deletions := some 1 }

/-- A context with a pending run of two same-entity pulses. -/
def runContext : PulseContext :=
  { freshContext with pulses := [wPulse 1 2, wPulse 5 3] }

/-- A store with one queued raw pulse, for the sync-exhaustion witness. -/
def w8Store : Store :=
  { emptyStore with pendingPulses := [samplePulse "a.ts" 100] }

/-- Two distinct pending pulses sharing timestamp 10, plus a survivor. -/
def pShared1 : Pulse := samplePulse "x.ts" 10

/-- The second pulse sharing timestamp 10 (different entity). -/
def pShared2 : Pulse := samplePulse "y.ts" 10

/-- A pending pulse at timestamp 20 that no synced pulse matches. -/
def pKeep : Pulse := samplePulse "z.ts" 20

/-- A store whose pending queue is [pShared1, pShared2, pKeep]. -/
def w10Store : Store :=
  { emptyStore with pendingPulses := [pShared1, pShared2, pKeep] }

/-! Helper lemmas shared by the claim theorems. -/

/-- When the date marker matches, the day-change check is the identity. -/
theorem checkDayChange_same_day (today : String) (now : Int) (store : Store)
    (h : hasDayChanged today store.todayDate = false) :
    checkDayChange today now store = store := by
  simp [checkDayChange, h]

/-- The day-change check never touches the two pulse queues. -/
theorem checkDayChange_queues (t : String) (n : Int) (s : Store) :
    (checkDayChange t n s).pendingPulses = s.pendingPulses
    ∧ (checkDayChange t n s).aggregatedPulses = s.aggregatedPulses := by
  unfold checkDayChange resetDailyCounters
  by_cases h : hasDayChanged t s.todayDate <;> simp [h]

/-- Saving the today total never touches the two pulse queues. -/
theorem saveTodayTotal_queues (t : String) (n total : Int) (s : Store) :
    (saveTodayTotal t n total s).pendingPulses = s.pendingPulses
    ∧ (saveTodayTotal t n total s).aggregatedPulses = s.aggregatedPulses := by
  unfold saveTodayTotal
  have h1 := checkDayChange_queues t n s
  by_cases h : total > jsOrZero (checkDayChange t n s).todayTotal <;>
    simp [h, h1.1, h1.2]

/-- Folding the pending run changes neither the today total nor the
last-activity clock. -/
theorem aggregatePulses_preserves :
    ∀ c : PulseContext, (aggregatePulses c).todayTotal = c.todayTotal
      ∧ (aggregatePulses c).lastActivityTime = c.lastActivityTime := by
  intro c
  unfold aggregatePulses
  rcases hc : c.pulses with _ | ⟨f, r⟩ <;> simp

/-- One tracking step adds exactly the below-threshold gap to the today
total and moves the last-activity clock to `now`. -/
theorem trackStep_todayTotal (c : PulseContext) (p : Pulse) (n : Int) :
    (trackStep c p n).todayTotal
      = c.todayTotal + (if calculateElapsedTime c.lastActivityTime n ≤ IDLE_THRESHOLD
          then calculateElapsedTime c.lastActivityTime n else 0)
    ∧ (trackStep c p n).lastActivityTime = n := by
  unfold trackStep when
  by_cases hagg : shouldAggregate (updateContext c p n) = true
  · simp only [hagg, if_true]
    have h1 := aggregatePulses_preserves (updateContext c p n)
    rw [h1.1, h1.2]
    unfold updateContext
    by_cases hact : calculateElapsedTime c.lastActivityTime n ≤ IDLE_THRESHOLD <;> simp [hact]
  · simp only [Bool.not_eq_true] at hagg
    simp only [hagg, Bool.false_eq_true, if_false]
    unfold updateContext
    by_cases hact : calculateElapsedTime c.lastActivityTime n ≤ IDLE_THRESHOLD <;> simp [hact]

/-- The claim-side accrual is never negative. -/
theorem accrue_nonneg : ∀ (ts : List Int) (last : Int), 0 ≤ accrue last ts := by
  intro ts
  induction ts with
  | nil => intro last; simp [accrue]
  | cons t ts ih =>
    intro last
    have h1 : 0 ≤ calculateElapsedTime last t := le_max_left 0 _
    have h2 := ih t
    unfold accrue
    by_cases h : calculateElapsedTime last t ≤ IDLE_THRESHOLD <;> simp [h] <;> omega

/-- Folding a list of line counters starting from an accumulator equals the
accumulator plus the mapped sum. -/
theorem foldl_add_jsOrZero (g : Pulse → Option Int) :
    ∀ (l : List Pulse) (s0 : Int),
      l.foldl (fun s p => s + jsOrZero (g p)) s0 = s0 + (l.map (fun p => jsOrZero (g p))).sum := by
  intro l
  induction l with
  | nil => intro s0; simp
  | cons p ps ih => intro s0; simp [ih]; ring

/-- In a run sorted by observation time, every pulse's time is at most the
last pulse's time. -/
theorem pairwise_le_getLast :
    ∀ (l : List Pulse), List.Pairwise (fun p q : Pulse => p.time ≤ q.time) l →
      ∀ (hne : l ≠ []), ∀ p ∈ l, p.time ≤ (l.getLast hne).time
  | [], _, hne => absurd rfl hne
  | [f], _, _ => by
    intro p hp
    simp only [List.mem_singleton] at hp
    subst hp
    simp [List.getLast]
  | f :: q :: qs, hs, _ => by
    intro p hp
    rw [List.getLast_cons (List.cons_ne_nil q qs)]
    rcases List.pairwise_cons.mp hs with ⟨hf, hr⟩
    rcases List.mem_cons.mp hp with hph | hpr
    · subst hph
      exact hf _ (List.getLast_mem _)
    · exact pairwise_le_getLast (q :: qs) hr (List.cons_ne_nil q qs) p hpr

/-- Clearing synced pulses whose times match no pending pulse is the
identity on the store. -/
theorem clearSynced_pending_eq (synced : List Pulse) (store : Store)
    (hall : ∀ p ∈ store.pendingPulses, ∀ q ∈ synced, q.time ≠ p.time) :
    clearSyncedPulses synced store = store := by
  have hfil : (clearSyncedPulses synced store).pendingPulses = store.pendingPulses := by
    simp only [clearSyncedPulses]
    apply List.filter_eq_self.mpr
    intro p hp
    simp
    intro q hq he
    exact hall p hp q hq he
  have h2 : clearSyncedPulses synced store
      = { store with pendingPulses := (clearSyncedPulses synced store).pendingPulses } := rfl
  rw [h2, hfil]

/-- A patch carrying `isOnline := some false` makes the stored status read
back offline. -/
theorem getSyncStatus_patched_isOnline (now : Int) (patch : SyncStatusPatch) (s : Store)
    (h : patch.isOnline = some false) :
    (getSyncStatus now (updateSyncStatus now patch s)).isOnline = false := by
  simp [getSyncStatus, updateSyncStatus, applyStatusPatch, h]

/-- A patch carrying `apiStatus := some error` makes the stored status read
back as error. -/
theorem getSyncStatus_patched_apiStatus (now : Int) (patch : SyncStatusPatch) (s : Store)
    (h : patch.apiStatus = some ApiStatus.error) :
    (getSyncStatus now (updateSyncStatus now patch s)).apiStatus = ApiStatus.error := by
  simp [getSyncStatus, updateSyncStatus, applyStatusPatch, h]

/-- A patch carrying a pending count writes that count through. -/
theorem getSyncStatus_patched_pending (now : Int) (patch : SyncStatusPatch) (s : Store)
    (v : Int) (h : patch.pendingPulses = some v) :
    (getSyncStatus now (updateSyncStatus now patch s)).pendingPulses = v := by
  simp [getSyncStatus, updateSyncStatus, applyStatusPatch, h]

/-- A patch carrying a last-error detail writes it through. -/
theorem getSyncStatus_patched_lastError (now : Int) (patch : SyncStatusPatch) (s : Store)
    (v : Option String) (h : patch.lastError = some v) :
    (getSyncStatus now (updateSyncStatus now patch s)).lastError = v := by
  simp [getSyncStatus, updateSyncStatus, applyStatusPatch, h]

/-- Updating the sync status never touches the two pulse queues. -/
theorem updateSyncStatus_queues (now : Int) (patch : SyncStatusPatch) (s : Store) :
    (updateSyncStatus now patch s).pendingPulses = s.pendingPulses
    ∧ (updateSyncStatus now patch s).aggregatedPulses = s.aggregatedPulses :=
  ⟨rfl, rfl⟩

/-- C1: evaluation of the tracking step at the failing input.  The context
holds a pending run (one pulse at t = 1) with the aggregation checkpoint at
t = 0 and last activity at t = 1.  On the step at now = 10000 — less than
30 s after the checkpoint, where the claim says the run is NOT folded —
the run IS folded into an AggregatedPulse and cleared; on the step at
now = 40000 — at least 30 s after the checkpoint with a pulse arrived
since, where the claim says the fold runs — the run is NOT folded (the
predicate compares the checkpoint against the already-refreshed
last-activity clock, inverting the trigger). -/
theorem aggregation_trigger_inverted :
    ((trackStep pendingRunContext (samplePulse "a.ts" 5) 10000).pulses = []
      ∧ (trackStep pendingRunContext (samplePulse "a.ts" 5) 10000).aggregatedPulses.length
          = pendingRunContext.aggregatedPulses.length + 1)
    ∧ ((trackStep pendingRunContext (samplePulse "a.ts" 5) 40000).pulses
          = pendingRunContext.pulses ++ [samplePulse "a.ts" 5]
      ∧ (trackStep pendingRunContext (samplePulse "a.ts" 5) 40000).aggregatedPulses = []) := by
  decide

/-- C2 counterexample: with a failing `savePulses` write the tracking call
rejects — but the in-memory context is not left equal to its value before
the call: the today total, last-activity clock and active flag all reflect
the new pulse. -/
theorem trackActivity_failure_context_changed :
    (trackActivity true false false "2026-10-11" 1000 emptyStore freshContext
        (samplePulse "a.ts" 1000)).ok = false
    ∧ (trackActivity true false false "2026-10-11" 1000 emptyStore freshContext
        (samplePulse "a.ts" 1000)).context ≠ freshContext
    ∧ (trackActivity true false false "2026-10-11" 1000 emptyStore freshContext
        (samplePulse "a.ts" 1000)).context.todayTotal ≠ freshContext.todayTotal
    ∧ (trackActivity true false false "2026-10-11" 1000 emptyStore freshContext
        (samplePulse "a.ts" 1000)).context.lastActivityTime ≠ freshContext.lastActivityTime
    ∧ (trackActivity true false false "2026-10-11" 1000 emptyStore freshContext
        (samplePulse "a.ts" 1000)).context.isActive ≠ freshContext.isActive := by
  decide

/-- C2 (amended): if any persistence write of a tracking call fails, the
returned operation rejects, but the in-memory context is not rolled back:
its pending pulses, today total, last-activity time and active flag are
those of the context after folding the new pulse. -/
theorem trackActivity_failure_rejects_keeps_fold
    (fs fa ft : Bool) (today : String) (now : Int) (store : Store)
    (ctx : PulseContext) (p : Pulse)
    (h : fs = true ∨ (fa = true ∧ (trackStep ctx p now).aggregatedPulses ≠ []) ∨ ft = true) :
    (trackActivity fs fa ft today now store ctx p).ok = false
    ∧ (trackActivity fs fa ft today now store ctx p).context.pulses
        = (trackStep ctx p now).pulses
    ∧ (trackActivity fs fa ft today now store ctx p).context.todayTotal
        = (trackStep ctx p now).todayTotal
    ∧ (trackActivity fs fa ft today now store ctx p).context.lastActivityTime
        = (trackStep ctx p now).lastActivityTime
    ∧ (trackActivity fs fa ft today now store ctx p).context.isActive
        = (trackStep ctx p now).isActive := by
  unfold trackActivity
  rcases h with hfs | ⟨hfa, hagg⟩ | hft
  · simp [hfs]
  · by_cases hfs : fs = true
    · simp [hfs]
    · simp only [Bool.not_eq_true] at hfs
      have hlen : (trackStep ctx p now).aggregatedPulses.length > 0 :=
        List.length_pos.mpr hagg
      simp [hfs, hlen, hfa]
  · by_cases hfs : fs = true
    · simp [hfs]
    · simp only [Bool.not_eq_true] at hfs
      by_cases hlen : (trackStep ctx p now).aggregatedPulses.length > 0
      · by_cases hfa : fa = true
        · simp [hfs, hlen, hfa]
        · simp only [Bool.not_eq_true] at hfa
          simp [hfs, hlen, hfa, hft]
      · simp [hfs, hlen, hft]

/-- C2 witness: the amended theorem applied at a concrete failing
`savePulses` write. -/
theorem trackActivity_failure_witness :
    (true = true
      ∨ (false = true
          ∧ (trackStep freshContext (samplePulse "a.ts" 1000) 1000).aggregatedPulses ≠ [])
      ∨ false = true)
    ∧ (trackActivity true false false "2026-10-11" 1000 emptyStore freshContext
        (samplePulse "a.ts" 1000)).ok = false :=
  ⟨Or.inl rfl,
    (trackActivity_failure_rejects_keeps_fold true false false "2026-10-11" 1000 emptyStore
      freshContext (samplePulse "a.ts" 1000) (Or.inl rfl)).1⟩

/-- C3: when the stored date marker differs from the current date, both
today-total access paths reset the stored total to 0 and the marker to
today first: `getTodayTotal` returns 0 (not the stale total), and
`saveTodayTotal` applies the new value against the reset 0 baseline. -/
theorem dayChange_resets_before_access (today : String) (now total : Int) (store : Store)
    (h : hasDayChanged today store.todayDate = true) :
    (getTodayTotal today now store).1 = 0
    ∧ (getTodayTotal today now store).2.todayTotal = some 0
    ∧ (getTodayTotal today now store).2.todayDate = some today
    ∧ (saveTodayTotal today now total store).todayTotal
        = some (if total > 0 then total else 0)
    ∧ (saveTodayTotal today now total store).todayDate = some today := by
  refine ⟨?_, ?_, ?_, ?_, ?_⟩ <;>
    simp [getTodayTotal, saveTodayTotal, checkDayChange, h, resetDailyCounters, jsOrZero] <;>
    by_cases ht : total > 0 <;> simp [ht]

/-- C3 witness: with yesterday's marker and a stored total of 500, the next
`getTodayTotal` returns 0. -/
theorem dayChange_witness :
    hasDayChanged "2026-10-11" yesterdayStore.todayDate = true
    ∧ (getTodayTotal "2026-10-11" 1000 yesterdayStore).1 = 0 :=
  ⟨by decide,
    (dayChange_resets_before_access "2026-10-11" 1000 300 yesterdayStore (by decide)).1⟩

/-- C4: evaluation of the merged sync list at the failing input.  With one
raw pulse at time 100 and one aggregated pulse at start time 50, the
comparator returns 0 for the mixed pair, so the stable sort leaves the raw
pulse first and it is sent before an item with a strictly smaller identity
timestamp — the merged list is not ascending by identity timestamp. -/
theorem mixed_sort_not_chronological :
    allItems [samplePulse "a.ts" 100] [sampleAgg 50]
      = [SyncItem.raw (samplePulse "a.ts" 100), SyncItem.agg (sampleAgg 50)]
    ∧ identityTime (SyncItem.raw (samplePulse "a.ts" 100))
        > identityTime (SyncItem.agg (sampleAgg 50)) := by
  decide

/-- C5: over any sequence of tracked pulses, the today total grows by
exactly the claim-side accrual — the sum of the consecutive gaps at most
the 120000 ms idle threshold, larger gaps contributing 0 — and is
therefore nondecreasing. -/
theorem todayTotal_accrual_invariant :
    ∀ (events : List (Pulse × Int)) (ctx : PulseContext),
      (runTrack ctx events).todayTotal
        = ctx.todayTotal + accrue ctx.lastActivityTime (events.map Prod.snd)
      ∧ ctx.todayTotal ≤ (runTrack ctx events).todayTotal := by
  intro events
  induction events with
  | nil => intro ctx; simp [runTrack, accrue]
  | cons e es ih =>
    intro ctx
    have hstep := trackStep_todayTotal ctx e.1 e.2
    have hrun : runTrack ctx (e :: es) = runTrack (trackStep ctx e.1 e.2) es := by
      simp [runTrack]
    have ih2 := ih (trackStep ctx e.1 e.2)
    rw [hrun]
    constructor
    · rw [ih2.1, hstep.1, hstep.2]
      simp [accrue]
      ring
    · have h3 : ctx.todayTotal ≤ (trackStep ctx e.1 e.2).todayTotal := by
        rw [hstep.1]
        have h4 : 0 ≤ calculateElapsedTime ctx.lastActivityTime e.2 := le_max_left 0 _
        by_cases h : calculateElapsedTime ctx.lastActivityTime e.2 ≤ IDLE_THRESHOLD
        · simp [h]
          omega
        · simp [h]
      omega

/-- C6: on an empty pending run the fold is a no-op; on a non-empty run of
same-entity pulses in observation order, the produced AggregatedPulse has
start time equal to the minimum pulse time, end time equal to the maximum
(so start ≤ end), line counters equal to the sums over the run,
descriptive fields copied from the latest pulse, and the pending run is
empty immediately afterwards. -/
theorem aggregatePulses_correct :
    (∀ c : PulseContext, c.pulses = [] → aggregatePulses c = c)
    ∧ ∀ (ctx : PulseContext) (ent : String),
        ctx.pulses ≠ [] →
        List.Pairwise (fun p q : Pulse => p.time ≤ q.time) ctx.pulses →
        (∀ p ∈ ctx.pulses, p.entity = ent) →
        ∃ a : AggregatedPulse,
          (aggregatePulses ctx).aggregatedPulses = ctx.aggregatedPulses ++ [a]
          ∧ (aggregatePulses ctx).pulses = []
          ∧ a.start_time ∈ ctx.pulses.map Pulse.time
          ∧ (∀ t ∈ ctx.pulses.map Pulse.time, a.start_time ≤ t)
          ∧ a.end_time ∈ ctx.pulses.map Pulse.time
          ∧ (∀ t ∈ ctx.pulses.map Pulse.time, t ≤ a.end_time)
          ∧ a.start_time ≤ a.end_time
          ∧ a.line_additions = (ctx.pulses.map (fun p => jsOrZero p.line_additions)).sum
          ∧ a.line_deletions = (ctx.pulses.map (fun p => jsOrZero p.line_deletions)).sum
          ∧ ∃ lp, ctx.pulses.getLast? = some lp
              ∧ a.entity = lp.entity ∧ a.type = lp.type ∧ a.state = lp.state
              ∧ a.project = lp.project ∧ a.branch = lp.branch ∧ a.language = lp.language
              ∧ a.dependencies = lp.dependencies ∧ a.machine_name_id = lp.machine_name_id
              ∧ a.lines = lp.lines ∧ a.is_write = lp.is_write ∧ a.entity = ent := by
  constructor
  · intro c hc
    unfold aggregatePulses
    rcases h : c.pulses with _ | ⟨f, r⟩
    · rfl
    · rw [hc] at h
      exact absurd h (by simp)
  · intro ctx ent hne hs hent
    obtain ⟨f, r, h⟩ := List.exists_cons_of_ne_nil hne
    have hagg : aggregatePulses ctx = { ctx with
        aggregatedPulses := ctx.aggregatedPulses ++
          [{ entity := ((f :: r).getLast (by simp)).entity
             type := ((f :: r).getLast (by simp)).type
             state := ((f :: r).getLast (by simp)).state
             start_time := f.time
             end_time := ((f :: r).getLast (by simp)).time
             project := ((f :: r).getLast (by simp)).project
             branch := ((f :: r).getLast (by simp)).branch
             language := ((f :: r).getLast (by simp)).language
             dependencies := ((f :: r).getLast (by simp)).dependencies
             machine_name_id := ((f :: r).getLast (by simp)).machine_name_id
             line_additions := ctx.pulses.foldl (fun sum p => sum + jsOrZero p.line_additions) 0
             line_deletions := ctx.pulses.foldl (fun sum p => sum + jsOrZero p.line_deletions) 0
             lines := ((f :: r).getLast (by simp)).lines
             is_write := ((f :: r).getLast (by simp)).is_write }]
        pulses := [] } := by
      unfold aggregatePulses
      rw [h]
    rw [h] at hs hent
    have hL : (f :: r) ≠ [] := by simp
    refine ⟨{ entity := ((f :: r).getLast hL).entity
              type := ((f :: r).getLast hL).type
              state := ((f :: r).getLast hL).state
              start_time := f.time
              end_time := ((f :: r).getLast hL).time
              project := ((f :: r).getLast hL).project
              branch := ((f :: r).getLast hL).branch
              language := ((f :: r).getLast hL).language
              dependencies := ((f :: r).getLast hL).dependencies
              machine_name_id := ((f :: r).getLast hL).machine_name_id
              line_additions := ctx.pulses.foldl (fun sum p => sum + jsOrZero p.line_additions) 0
              line_deletions := ctx.pulses.foldl (fun sum p => sum + jsOrZero p.line_deletions) 0
              lines := ((f :: r).getLast hL).lines
              is_write := ((f :: r).getLast hL).is_write },
        ?_, ?_, ?_, ?_, ?_, ?_, ?_, ?_, ?_, ?_⟩
    · rw [hagg]
    · rw [hagg]
    · rw [h]
      exact List.mem_map_of_mem Pulse.time (List.mem_cons_self f r)
    · intro t ht
      rw [h] at ht
      obtain ⟨p, hp, rfl⟩ := List.mem_map.mp ht
      rcases List.mem_cons.mp hp with hph | hpr
      · subst hph
        exact le_refl _
      · exact (List.pairwise_cons.mp hs).1 p hpr
    · rw [h]
      exact List.mem_map_of_mem Pulse.time (List.getLast_mem _)
    · intro t ht
      rw [h] at ht
      obtain ⟨p, hp, rfl⟩ := List.mem_map.mp ht
      exact pairwise_le_getLast (f :: r) hs (by simp) p hp
    · exact pairwise_le_getLast (f :: r) hs (by simp) f (List.mem_cons_self f r)
    · show ctx.pulses.foldl (fun sum p => sum + jsOrZero p.line_additions) 0
        = (ctx.pulses.map (fun p => jsOrZero p.line_additions)).sum
      rw [foldl_add_jsOrZero (fun p => p.line_additions) ctx.pulses 0]
      simp
    · show ctx.pulses.foldl (fun sum p => sum + jsOrZero p.line_deletions) 0
        = (ctx.pulses.map (fun p => jsOrZero p.line_deletions)).sum
      rw [foldl_add_jsOrZero (fun p => p.line_deletions) ctx.pulses 0]
      simp
    · refine ⟨(f :: r).getLast hL, ?_, rfl, rfl, rfl, rfl, rfl, rfl, rfl, rfl, rfl, rfl, ?_⟩
      · rw [h]
        exact List.getLast?_eq_getLast_of_ne_nil (by simp)
      · exact hent _ (List.getLast_mem _)

/-- C6 witness: the aggregation theorem applied to a concrete two-pulse
run for entity a.ts at times 1 and 5. -/
theorem aggregatePulses_correct_witness :
    runContext.pulses ≠ []
    ∧ ∃ a : AggregatedPulse,
        (aggregatePulses runContext).aggregatedPulses = runContext.aggregatedPulses ++ [a]
        ∧ (aggregatePulses runContext).pulses = []
        ∧ a.start_time ∈ runContext.pulses.map Pulse.time
        ∧ (∀ t ∈ runContext.pulses.map Pulse.time, a.start_time ≤ t)
        ∧ a.end_time ∈ runContext.pulses.map Pulse.time
        ∧ (∀ t ∈ runContext.pulses.map Pulse.time, t ≤ a.end_time)
        ∧ a.start_time ≤ a.end_time
        ∧ a.line_additions = (runContext.pulses.map (fun p => jsOrZero p.line_additions)).sum
        ∧ a.line_deletions = (runContext.pulses.map (fun p => jsOrZero p.line_deletions)).sum
        ∧ ∃ lp, runContext.pulses.getLast? = some lp
            ∧ a.entity = lp.entity ∧ a.type = lp.type ∧ a.state = lp.state
            ∧ a.project = lp.project ∧ a.branch = lp.branch ∧ a.language = lp.language
            ∧ a.dependencies = lp.dependencies ∧ a.machine_name_id = lp.machine_name_id
            ∧ a.lines = lp.lines ∧ a.is_write = lp.is_write ∧ a.entity = "a.ts" :=
  ⟨by decide,
    aggregatePulses_correct.2 runContext "a.ts" (by decide) (by decide) (by decide)⟩

/-- C7: within one day (marker already current), `saveTodayTotal` writes
only a strictly greater value and otherwise leaves the store unchanged, so
after any sequence of saves the stored total is the maximum of the initial
value and all saved values. -/
theorem saveTodayTotal_highWaterMark (today : String) (now : Int) (store : Store)
    (h : hasDayChanged today store.todayDate = false) :
    (∀ total : Int, ¬ total > jsOrZero store.todayTotal →
        saveTodayTotal today now total store = store)
    ∧ (∀ total : Int, total > jsOrZero store.todayTotal →
        (saveTodayTotal today now total store).todayTotal = some total)
    ∧ ∀ totals : List Int,
        jsOrZero ((totals.foldl (fun s t => saveTodayTotal today now t s) store).todayTotal)
          = totals.foldl max (jsOrZero store.todayTotal) := by
  have hstep : ∀ (s : Store), hasDayChanged today s.todayDate = false → ∀ t : Int,
      jsOrZero ((saveTodayTotal today now t s).todayTotal) = max (jsOrZero s.todayTotal) t
      ∧ (saveTodayTotal today now t s).todayDate = s.todayDate := by
    intro s hs t
    unfold saveTodayTotal
    rw [checkDayChange_same_day today now s hs]
    by_cases hgt : t > jsOrZero s.todayTotal
    · rw [if_pos hgt]
      refine ⟨?_, rfl⟩
      show jsOrZero (some t) = max (jsOrZero s.todayTotal) t
      simp only [jsOrZero]
      exact (max_eq_right (le_of_lt hgt)).symm
    · rw [if_neg hgt]
      exact ⟨(max_eq_left (le_of_not_lt hgt)).symm, rfl⟩
  refine ⟨?_, ?_, ?_⟩
  · intro t ht
    unfold saveTodayTotal
    rw [checkDayChange_same_day today now store h, if_neg ht]
  · intro t ht
    unfold saveTodayTotal
    rw [checkDayChange_same_day today now store h, if_pos ht]
  · intro totals
    induction totals generalizing store with
    | nil => simp
    | cons t ts ih =>
      have h1 := hstep store h t
      have h2 : hasDayChanged today (saveTodayTotal today now t store).todayDate = false := by
        rw [h1.2]
        exact h
      simp only [List.foldl_cons]
      rw [ih (saveTodayTotal today now t store) h2, h1.1]

/-- C7 witness: saving 50 then 30 on a same-day store with total 0 leaves
the stored value at 50. -/
theorem saveTodayTotal_highWaterMark_witness :
    hasDayChanged "2026-10-11" hwmStore.todayDate = false
    ∧ jsOrZero ((([50, 30] : List Int).foldl
        (fun s t => saveTodayTotal "2026-10-11" 999 t s) hwmStore).todayTotal) = 50 :=
  ⟨by decide,
    ((saveTodayTotal_highWaterMark "2026-10-11" 999 hwmStore (by decide)).2.2 [50, 30]).trans
      (by decide)⟩

/-- C8: a sync run in which every network send fails makes
`MAX_RETRY_ATTEMPTS` additional attempts after the first, sleeping
`2 ^ retryCount * INITIAL_BACKOFF` between attempts; after exhaustion the
run rejects, the persisted status reads offline with apiStatus error, the
pending count equal to the number of items read for the attempt, and a
last error recorded, while both queues keep exactly the items read. -/
theorem performSync_retry_exhaustion (errs : Nat → String) (key today : String)
    (now : Int) (store : Store)
    (hne : ¬ (store.pendingPulses.length = 0 ∧ store.aggregatedPulses.length = 0)) :
    (performSync (fun i => some (errs i)) (some key) today now store).ok = false
    ∧ (performSync (fun i => some (errs i)) (some key) today now store).delays
        = (List.range MAX_RETRY_ATTEMPTS).map (fun j => 2 ^ j * INITIAL_BACKOFF)
    ∧ (performSync (fun i => some (errs i)) (some key) today now store).sends
        = MAX_RETRY_ATTEMPTS + 1
    ∧ (performSync (fun i => some (errs i)) (some key) today now store).store.pendingPulses
        = store.pendingPulses
    ∧ (performSync (fun i => some (errs i)) (some key) today now store).store.aggregatedPulses
        = store.aggregatedPulses
    ∧ (getSyncStatus now
        (performSync (fun i => some (errs i)) (some key) today now store).store).isOnline = false
    ∧ (getSyncStatus now
        (performSync (fun i => some (errs i)) (some key) today now store).store).apiStatus
        = ApiStatus.error
    ∧ (getSyncStatus now
        (performSync (fun i => some (errs i)) (some key) today now store).store).pendingPulses
        = (store.pendingPulses.length : Int) + (store.aggregatedPulses.length : Int)
    ∧ (getSyncStatus now
        (performSync (fun i => some (errs i)) (some key) today now store).store).lastError
        = some (errs MAX_RETRY_ATTEMPTS) := by
  have hg := checkDayChange_queues today now store
  have hs0 := saveTodayTotal_queues today now
    (getTodayTotal today now store).1 (getTodayTotal today now store).2
  have hgp : (getTodayTotal today now store).2.pendingPulses = store.pendingPulses := by
    unfold getTodayTotal
    exact hg.1
  have hga : (getTodayTotal today now store).2.aggregatedPulses = store.aggregatedPulses := by
    unfold getTodayTotal
    exact hg.2
  simp only [performSync]
  set s0 := saveTodayTotal today now (getTodayTotal today now store).1
    (getTodayTotal today now store).2 with hs0def
  have hp0 : s0.pendingPulses = store.pendingPulses := hs0.1.trans hgp
  have ha0 : s0.aggregatedPulses = store.aggregatedPulses := hs0.2.trans hga
  have hcond : ¬ ((getPendingPulses s0).length = 0 ∧ (getAggregatedPulses s0).length = 0) := by
    simpa [getPendingPulses, getAggregatedPulses, hp0, ha0] using hne
  have hatt : attemptSync (fun i => some (errs i)) today now (getPendingPulses s0)
      (getAggregatedPulses s0) 0 (MAX_RETRY_ATTEMPTS + 1) s0
      = ((⟨false, s0, [2 ^ 0 * INITIAL_BACKOFF], 2⟩ : SyncOutcome), some (errs 1)) := rfl
  rw [if_neg hcond]
  simp only [hatt]
  refine ⟨rfl, rfl, rfl, ?_, ?_, ?_, ?_, ?_, ?_⟩
  · exact (updateSyncStatus_queues now _ s0).1.trans hp0
  · exact (updateSyncStatus_queues now _ s0).2.trans ha0
  · exact getSyncStatus_patched_isOnline now _ s0 rfl
  · exact getSyncStatus_patched_apiStatus now _ s0 rfl
  · refine (getSyncStatus_patched_pending now _ s0
      ((getPendingPulses s0).length + (getAggregatedPulses s0).length) rfl).trans ?_
    simp [getPendingPulses, getAggregatedPulses, hp0, ha0]
  · exact getSyncStatus_patched_lastError now _ s0 (some (errs 1)) rfl

/-- C8 witness: the exhaustion theorem applied to a store with one queued
pulse and an always-failing network. -/
theorem performSync_retry_exhaustion_witness :
    ¬ (w8Store.pendingPulses.length = 0 ∧ w8Store.aggregatedPulses.length = 0)
    ∧ (performSync (fun _ => some "network down") (some "k") "2026-10-11" 0 w8Store).ok = false
    ∧ (getSyncStatus 0
        (performSync (fun _ => some "network down") (some "k") "2026-10-11" 0 w8Store).store).apiStatus
        = ApiStatus.error :=
  ⟨by decide,
    (performSync_retry_exhaustion (fun _ => "network down") "k" "2026-10-11" 0 w8Store
      (by decide)).1,
    (performSync_retry_exhaustion (fun _ => "network down") "k" "2026-10-11" 0 w8Store
      (by decide)).2.2.2.2.2.2.1⟩

/-- C9: the line-change heuristic agrees everywhere with the claim-side
description, identical or empty-previous content gives (0, 0), and the
four concrete examples evaluate as the claim states. -/
theorem calculateLineChanges_spec :
    (∀ oldContent newContent : String,
        calculateLineChanges oldContent newContent = claimLineChanges oldContent newContent)
    ∧ (∀ s : String, calculateLineChanges s s = { additions := 0, deletions := 0 })
    ∧ (∀ s : String, calculateLineChanges "" s = { additions := 0, deletions := 0 })
    ∧ calculateLineChanges "a\nb" "a\nb" = { additions := 0, deletions := 0 }
    ∧ calculateLineChanges "a" "a\nb" = { additions := 1, deletions := 0 }
    ∧ calculateLineChanges "a\nb" "a" = { additions := 0, deletions := 1 }
    ∧ calculateLineChanges "a\nb" "a\nc" = { additions := 1, deletions := 1 } := by
  refine ⟨?_, ?_, ?_, by decide, by decide, by decide, by decide⟩
  · intro o n
    by_cases h : o = "" ∨ o = n
    · simp [calculateLineChanges, claimLineChanges, h]
    · simp only [calculateLineChanges, claimLineChanges, h, if_false]
      rcases lt_trichotomy (splitLines o).length (splitLines n).length with hlt | heq | hgt
      · have h1 : ((splitLines n).length : Int) - ((splitLines o).length : Int) > 0 := by omega
        have h2 : (((splitLines n).length - (splitLines o).length : Nat) : Int)
            = ((splitLines n).length : Int) - ((splitLines o).length : Int) := by omega
        simp [h1, hlt, h2]
      · have h1 : ¬ (((splitLines n).length : Int) - ((splitLines o).length : Int) > 0) := by
          omega
        have h2 : ¬ (((splitLines n).length : Int) - ((splitLines o).length : Int) < 0) := by
          omega
        have h3 : ¬ ((splitLines o).length < (splitLines n).length) := by omega
        have h4 : ¬ ((splitLines n).length < (splitLines o).length) := by omega
        simp only [h1, h2, h3, h4, if_false]
        by_cases h5 : ((List.filter (fun l => !(splitLines o).contains l) (splitLines n)).length : Int)
            = ((List.filter (fun l => !(splitLines n).contains l) (splitLines o)).length : Int)
            ∧ ((List.filter (fun l => !(splitLines o).contains l) (splitLines n)).length : Int) > 0
        · have h6 : (List.filter (fun l => !(splitLines o).contains l) (splitLines n)).length
              = (List.filter (fun l => !(splitLines n).contains l) (splitLines o)).length
              ∧ 0 < (List.filter (fun l => !(splitLines o).contains l) (splitLines n)).length := by
            constructor <;> omega
          simp [h5, h6]
        · have h6 : ¬ ((List.filter (fun l => !(splitLines o).contains l) (splitLines n)).length
              = (List.filter (fun l => !(splitLines n).contains l) (splitLines o)).length
              ∧ 0 < (List.filter (fun l => !(splitLines o).contains l) (splitLines n)).length) := by
            intro hc
            exact h5 ⟨by omega, by omega⟩
          simp [h5, h6]
      · have h1 : ¬ (((splitLines n).length : Int) - ((splitLines o).length : Int) > 0) := by
          omega
        have h2 : ((splitLines n).length : Int) - ((splitLines o).length : Int) < 0 := by omega
        have h3 : ¬ ((splitLines o).length < (splitLines n).length) := by omega
        have h4 : (((splitLines o).length - (splitLines n).length : Nat) : Int)
            = |((splitLines n).length : Int) - ((splitLines o).length : Int)| := by
          rw [abs_of_neg h2]
          omega
        simp [h1, h2, h3, hgt, h4]
  · intro s
    simp [calculateLineChanges]
  · intro s
    simp [calculateLineChanges]

/-- C10: clearing synced pulses removes exactly the pending pulses whose
`time` matches some synced pulse's `time`, keeping the survivors in order;
a synced pulse matching nothing removes nothing; the aggregated queue, the
today total and the date marker are untouched; and
`clearSyncedAggregatedPulses` behaves symmetrically keyed by
`start_time`. -/
theorem clearSynced_identity_filter (synced : List Pulse) (syncedA : List AggregatedPulse)
    (store : Store) :
    ((clearSyncedPulses synced store).pendingPulses.Sublist store.pendingPulses)
    ∧ (∀ p, p ∈ (clearSyncedPulses synced store).pendingPulses
        ↔ p ∈ store.pendingPulses ∧ ∀ q ∈ synced, q.time ≠ p.time)
    ∧ (∀ p ∈ store.pendingPulses, (∃ q ∈ synced, q.time = p.time)
        → p ∉ (clearSyncedPulses synced store).pendingPulses)
    ∧ ((∀ p ∈ store.pendingPulses, ∀ q ∈ synced, q.time ≠ p.time)
        → clearSyncedPulses synced store = store)
    ∧ (clearSyncedPulses synced store).aggregatedPulses = store.aggregatedPulses
    ∧ (clearSyncedPulses synced store).todayTotal = store.todayTotal
    ∧ (clearSyncedPulses synced store).todayDate = store.todayDate
    ∧ ((clearSyncedAggregatedPulses syncedA store).aggregatedPulses.Sublist store.aggregatedPulses)
    ∧ (∀ a, a ∈ (clearSyncedAggregatedPulses syncedA store).aggregatedPulses
        ↔ a ∈ store.aggregatedPulses ∧ ∀ q ∈ syncedA, q.start_time ≠ a.start_time)
    ∧ (clearSyncedAggregatedPulses syncedA store).pendingPulses = store.pendingPulses
    ∧ (clearSyncedAggregatedPulses syncedA store).todayTotal = store.todayTotal := by
  have hmem : ∀ p, p ∈ (clearSyncedPulses synced store).pendingPulses
      ↔ p ∈ store.pendingPulses ∧ ∀ q ∈ synced, q.time ≠ p.time := by
    intro p
    simp only [clearSyncedPulses, List.mem_filter]
    constructor
    · intro ⟨h1, h2⟩
      refine ⟨h1, ?_⟩
      intro q hq he
      simp at h2
      exact h2 q hq he
    · intro ⟨h1, h2⟩
      refine ⟨h1, ?_⟩
      simp
      intro q hq he
      exact h2 q hq he
  have hmemA : ∀ a, a ∈ (clearSyncedAggregatedPulses syncedA store).aggregatedPulses
      ↔ a ∈ store.aggregatedPulses ∧ ∀ q ∈ syncedA, q.start_time ≠ a.start_time := by
    intro a
    simp only [clearSyncedAggregatedPulses, List.mem_filter]
    constructor
    · intro ⟨h1, h2⟩
      refine ⟨h1, ?_⟩
      intro q hq he
      simp at h2
      exact h2 q hq he
    · intro ⟨h1, h2⟩
      refine ⟨h1, ?_⟩
      simp
      intro q hq he
      exact h2 q hq he
  refine ⟨List.filter_sublist _, hmem, ?_, clearSynced_pending_eq synced store, rfl, rfl, rfl,
    List.filter_sublist _, hmemA, rfl, rfl⟩
  intro p hp ⟨q, hq, he⟩ hin
  exact ((hmem p).mp hin).2 q hq he

/-- C10 witness: with pending queue [pShared1, pShared2, pKeep] and only
pShared1 synced, both pulses sharing timestamp 10 are removed and the
pulse at timestamp 20 survives in place. -/
theorem clearSynced_identity_filter_witness :
    pShared2 ∈ w10Store.pendingPulses
    ∧ pShared2 ∉ (clearSyncedPulses [pShared1] w10Store).pendingPulses
    ∧ (clearSyncedPulses [pShared1] w10Store).pendingPulses = [pKeep]
    ∧ (clearSyncedPulses [pShared1] w10Store).aggregatedPulses = w10Store.aggregatedPulses :=
  ⟨by decide,
    (clearSynced_identity_filter [pShared1] [] w10Store).2.2.1 pShared2 (by decide)
      ⟨pShared1, by decide, by decide⟩,
    by decide,
    by decide⟩

end TimeFly
